import Mathlib

/-!
Verification of the NAIP basemap download script (`basemap_generator.py`).

The development shallowly embeds the data model and operations of the script:

* `ProcessTracker` (lines 11-31) becomes explicit state passing over a
  `Finset String` of completed URLs together with a `FileState` modelling the
  on-disk `download_progress.json` file.
* `create_retry_session` (lines 33-40) becomes a record of the retry policy
  and the `timeout` attribute assigned to the session object.
* `download_tif` (lines 42-69) becomes a recursion over the per-attempt
  outcomes of the streamed HTTP GET, tracking the value returned to the
  caller, the total time slept in backoff, and the state of the output file
  on disk.
* `get_tif_urls` (lines 71-138) becomes a function from a model of the
  catalog HTTP response to `Except PyError (List String)`: `.ok` is the list
  returned by the Python function, `.error` is an exception escaping it.
* `process_tifs` (lines 140-213) becomes a fold over the URL list producing
  the final tracker state, the list of new input files, the list of URLs for
  which a download was attempted (network I/O), the persisted progress file,
  and the external commands issued.
-/

/-! ## Python sets

A Python `set` of strings is modelled as a duplicate-free `List String`.
The iteration order of a Python set is an implementation detail; this model
fixes first-insertion order as the canonical representative, which is sound
for every claim below (they all speak about membership, not order). -/

/-- Tail of first-seen deduplication with an accumulator of already-kept
elements. -/
def dedupGo {α : Type} [DecidableEq α] (acc : List α) : List α → List α
  | [] => acc
  | x :: xs => if x ∈ acc then dedupGo acc xs else dedupGo (acc ++ [x]) xs

/-- Deduplication keeping the first occurrence of each element. Used both
for `set(json.load(f))` (building a set from a JSON array) and for the URL
deduplication loop of `get_tif_urls` (lines 128-131), which it mirrors
exactly: `if url not in all_urls: all_urls.append(url)`. -/
def dedupFirstSeen {α : Type} [DecidableEq α] (l : List α) : List α := dedupGo [] l

/-- Python `set.add`: insert an element unless already present. -/
def pySetInsert (s : List String) (u : String) : List String :=
  if u ∈ s then s else s ++ [u]

/-! ## Progress tracker (`ProcessTracker`, lines 11-31) -/

/-- Model of the contents of `<output_dir>/download_progress.json`:
the file may be absent, present but not valid JSON, or a valid JSON array of
strings (the only shape the program itself ever writes, via `save_progress`). -/
inductive FileState where
  | absent
  | corrupt
  | valid (entries : List String)
deriving DecidableEq, Inhabited

/-- Error raised while reading the progress file: `json.load` raises
`json.JSONDecodeError` on a file that is not valid JSON (line 19), and
nothing in the script catches it. -/
inductive TrackerError where
  | jsonDecodeError
deriving DecidableEq, Inhabited

/-- Embedding of `ProcessTracker.load_progress` (lines 16-20): if the file
exists, parse it and build a Python `set` from the array
(`set(json.load(f))`, modelled by first-seen deduplication); if parsing
fails the exception propagates; if the file does not exist, return the
empty set. -/
def load_progress : FileState → Except TrackerError (List String)
  | .absent => .ok []
  | .corrupt => .error .jsonDecodeError
  | .valid entries => .ok (dedupFirstSeen entries)

/-- Embedding of `ProcessTracker.save_progress` (lines 22-24): writes
`list(self.completed_urls)` as a JSON array, replacing the whole file. -/
def save_progress (completed_urls : List String) : FileState :=
  .valid completed_urls

/-- Embedding of `ProcessTracker.mark_completed` (lines 26-28): insert the
URL into the in-memory set, then rewrite the persisted file from the updated
set. Returns the new in-memory set and the new file contents. -/
def mark_completed (completed_urls : List String) (url : String) :
    List String × FileState :=
  (pySetInsert completed_urls url, save_progress (pySetInsert completed_urls url))

/-- Embedding of `ProcessTracker.is_completed` (lines 30-31): membership test
`url in self.completed_urls`. -/
def is_completed (completed_urls : List String) (url : String) : Bool :=
  completed_urls.contains url

/-! ## Retry-aware session (`create_retry_session`, lines 33-40) -/

/-- Model of the `urllib3.util.Retry` object constructed on line 35. -/
structure RetryPolicy where
  total : Nat
  backoff_factor : ℚ
  status_forcelist : List Nat
deriving DecidableEq

/-- Model of the `requests.Session` returned by `create_retry_session`:
the retry policy mounted for `http://` and `https://`, and the value of the
plain Python attribute assigned by `session.timeout = timeout` (line 39). -/
structure Session where
  retry : RetryPolicy
  timeoutAttr : Option ℚ
deriving DecidableEq

/-- Embedding of `create_retry_session` (lines 33-40). -/
def create_retry_session (retries : Nat) (backoff_factor : ℚ) (timeout : ℚ) :
    Session :=
  { retry :=
      { total := retries
        backoff_factor := backoff_factor
        status_forcelist := [500, 502, 503, 504] }
    timeoutAttr := some timeout }

/-- Modelled from the requests library semantics: the timeout applied to an
individual request is exactly the `timeout` keyword argument of that call
(`None`, i.e. wait forever, when omitted). `requests.Session` has no
session-wide `timeout` setting; the attribute assigned on line 39 is an
ordinary Python attribute that the library never consults. -/
def requestAppliedTimeout (sess : Session) (timeoutArg : Option ℚ) : Option ℚ :=
  timeoutArg

/-- Timeout actually applied to the catalog search request
`session.post(stac_search_url, json=search_params)` (line 106): the call
passes no `timeout` keyword argument. -/
def catalogPostAppliedTimeout : Option ℚ :=
  requestAppliedTimeout (create_retry_session 3 (3 / 10) 300) none

/-- Timeout actually applied to each file download request
`session.get(url, stream=True)` (line 46): the call passes no `timeout`
keyword argument. -/
def downloadGetAppliedTimeout : Option ℚ :=
  requestAppliedTimeout (create_retry_session 3 (3 / 10) 300) none

/-! ## Download loop (`download_tif`, lines 42-69) -/

/-- Outcome of one attempt of the body of the retry loop in `download_tif`:
either the whole body runs without exception (`success`), or a
`requests.RequestException` is raised before the output file is opened
(by `session.get` or `response.raise_for_status`, lines 46-47), or it is
raised while streaming chunks after the file has been opened and partially
written (line 57). -/
inductive AttemptOutcome where
  | success
  | failBeforeOpen
  | failDuringStream
deriving DecidableEq

/-- State of the output file created by an attempt: fully written, or
partially written by an attempt that died mid-stream. -/
inductive FileWrite where
  | full
  | incomplete
deriving DecidableEq

/-- Observable result of a `download_tif` call: the Python return value
(`True`, `False`, or the implicit `None`, modelled by `Option Bool`), the
total number of seconds spent in `time.sleep` backoff (line 66), and the
final state of the output file on disk (`none` when no attempt ever opened
it; the script never deletes a partially written file). -/
structure DownloadOutcome where
  result : Option Bool
  waited : Nat
  disk : Option FileWrite
deriving DecidableEq

/-- Recursion of the retry loop `for attempt in range(max_retries)` of
`download_tif` (lines 44-69). `remaining` is `max_retries - attempt`; on an
exception the code sleeps `(attempt + 1) * 5` seconds and retries while
`attempt < max_retries - 1` (equivalently `remaining > 1`), otherwise
returns `False`; when the loop ends without executing a `return`, Python
returns `None`. -/
def download_go (o : Nat → AttemptOutcome) :
    Nat → Nat → Nat → Option FileWrite → DownloadOutcome
  | 0, _, waited, disk => { result := none, waited := waited, disk := disk }
  | remaining + 1, attempt, waited, disk =>
    match o attempt with
    | .success => { result := some true, waited := waited, disk := some .full }
    | .failBeforeOpen =>
        if remaining = 0 then { result := some false, waited := waited, disk := disk }
        else download_go o remaining (attempt + 1) (waited + (attempt + 1) * 5) disk
    | .failDuringStream =>
        if remaining = 0 then
          { result := some false, waited := waited, disk := some .incomplete }
        else download_go o remaining (attempt + 1) (waited + (attempt + 1) * 5)
          (some .incomplete)

/-- Embedding of `download_tif` (lines 42-69), parameterised by the outcome
`o i` of the `i`-th (0-based) attempt. Initially no time has been slept and
no output file exists. -/
def download_tif (o : Nat → AttemptOutcome) (max_retries : Nat) : DownloadOutcome :=
  download_go o max_retries 0 0 none

/-- Python truthiness of the value returned by `download_tif`, as used by
`if download_tif(url, tif_path):` on line 152: `True` is truthy, `False` and
`None` are falsy. -/
def pyTruthy : Option Bool → Bool
  | some true => true
  | _ => false

/-! ## Catalog query (`get_tif_urls`, lines 71-138) -/

/-- Lexicographic comparison of character sequences by code point, the
comparison Python uses for `str` (the sort key on line 116 is the raw
datetime string). -/
def lexLe : List Char → List Char → Bool
  | [], _ => true
  | _ :: _, [] => false
  | a :: as, b :: bs =>
      if a.toNat < b.toNat then true
      else if b.toNat < a.toNat then false
      else lexLe as bs

/-- String comparison by code points, as Python compares `str` values. -/
def strLe (s t : String) : Bool := lexLe s.toList t.toList

/-- Model of one element of the `features` array of the catalog response:
either a well-formed feature exposing `properties.datetime` and
`assets.image.href`, or a feature missing those keys (accessing them raises
`KeyError`, which nothing in `get_tif_urls` catches). -/
inductive Feature where
  | wf (datetime : String) (href : String)
  | malformed
deriving DecidableEq, Inhabited

/-- Check for the malformed case. -/
def Feature.isMalformed : Feature → Bool
  | .malformed => true
  | _ => false

/-- Value of the `properties.datetime` field of a well-formed feature. -/
def Feature.datetimeOf : Feature → String
  | .wf d _ => d
  | .malformed => ""

/-- Value of the `assets.image.href` field of a well-formed feature. -/
def Feature.hrefOf : Feature → String
  | .wf _ h => h
  | .malformed => ""

/-- Sort relation used on line 116: `sorted(..., key=datetime, reverse=True)`
keeps `a` before `b` exactly when the datetime string of `b` is ≤ that of
`a`; on equal keys the Python sort is stable. -/
def featureLe (a b : Feature) : Prop := strLe b.datetimeOf a.datetimeOf = true

instance : DecidableRel featureLe := fun a b => inferInstanceAs (Decidable (_ = true))

/-- Model of `datetime.strptime` succeeding on the format `%Y-%m-%dT%H:%M:%SZ`: the
fixed-width shape of the format string, which is the shape of every datetime
the STAC catalog serves. -/
def validDatetime (s : String) : Bool :=
  match s.toList with
  | [y1, y2, y3, y4, '-', m1, m2, '-', d1, d2, 'T', h1, h2, ':', mi1, mi2, ':', s1, s2, 'Z'] =>
      [y1, y2, y3, y4, m1, m2, d1, d2, h1, h2, mi1, mi2, s1, s2].all Char.isDigit
  | _ => false

/-- Model of the `year` of `datetime.strptime` on format `%Y-%m-%dT%H:%M:%SZ` (lines 119 and
124) for a format-valid string: the numeric value of the first four digits. -/
def yearOf (s : String) : Nat :=
  (s.toList.take 4).foldl (fun n c => n * 10 + (c.toNat - '0'.toNat)) 0

/-- Embedding of `sorted_features` (line 116): a stable descending sort of
the features by their datetime string. `List.insertionSort` is stable, hence
extensionally equal to the stable Python sort for this key. -/
def sortedOf (features : List Feature) : List Feature :=
  List.insertionSort featureLe features

/-- Embedding of `latest_year` (line 119): the year of the first feature of
the sorted list. -/
def latestYearOf (features : List Feature) : Nat :=
  yearOf ((sortedOf features).headD default).datetimeOf

/-- Embedding of `region_features` (lines 123-124): the sorted features whose
parsed year equals `latest_year`. -/
def regionOf (features : List Feature) : List Feature :=
  (sortedOf features).filter (fun f => yearOf f.datetimeOf == latestYearOf features)

/-- Embedding of `all_urls` as returned on line 138 when the response parsed:
the asset URLs of `region_features` in order, deduplicated first-seen. -/
def extractUrls (features : List Feature) : List String :=
  dedupFirstSeen ((regionOf features).map Feature.hrefOf)

/-- Largest parsed year occurring among a list of features. -/
def maxYearOf (features : List Feature) : Nat :=
  (features.map (fun f => yearOf f.datetimeOf)).foldr max 0

/-- Exceptions that can escape `get_tif_urls`: the `except` clause on line
135 catches exactly `requests.exceptions.RequestException`, so
`AttributeError` (calling `.get` on a non-dict JSON value, line 112),
`KeyError` (indexing a feature missing `properties`/`datetime`/`assets`
keys, lines 116-129) and `ValueError` (an unparseable datetime handed to
`strptime`, lines 119-124) all propagate to the caller. -/
inductive PyError where
  | attributeError
  | keyError
  | valueError
deriving DecidableEq

/-- Model of the catalog interaction observed by `get_tif_urls`:
a transport-level failure raised by `session.post` or `raise_for_status`
(lines 106-107); a 2xx response whose body is not valid JSON, making
`response.json()` raise `requests.exceptions.JSONDecodeError`, a subclass of
`RequestException` in requests ≥ 2.27 (line 112); a JSON body whose top
level is not an object, making the `.get` call for the `features` key raise
`AttributeError` (line 112); or a JSON object whose `features` key is a
list of features (`none` models a missing `features` key, defaulting
to `[]`). -/
inductive CatalogResponse where
  | transportError
  | notJson
  | jsonNonDict
  | jsonDict (features : Option (List Feature))
deriving DecidableEq

/-- Embedding of `get_tif_urls` (lines 71-138). A `.ok` value is the list
the Python function returns; a `.error` value is an uncaught exception
escaping it. Transport errors and JSON-decode errors are caught by the
`except requests.exceptions.RequestException` clause (line 135) and fall
through to `return all_urls` with `all_urls = []`. -/
def get_tif_urls (resp : CatalogResponse) : Except PyError (List String) :=
  match resp with
  | .transportError => .ok []
  | .notJson => .ok []
  | .jsonNonDict => .error .attributeError
  | .jsonDict ofeats =>
      let features := ofeats.getD []
      if features.isEmpty then .ok []
      else if features.any Feature.isMalformed then .error .keyError
      else if (sortedOf features).all (fun f => validDatetime f.datetimeOf) then
        .ok (extractUrls features)
      else .error .valueError

/-! ## Processing loop and pipeline (`process_tifs`, lines 140-213) -/

/-- State threaded through the `for i, url in enumerate(tif_urls, 1)` loop of
`process_tifs`: the in-memory set of the tracker, the `input_files` list of newly
downloaded paths, the list of URLs for which `download_tif` was invoked
(i.e. network I/O happened), and the persisted progress file. -/
structure RunState where
  tracker : List String
  input_files : List String
  attempted : List String
  persisted : FileState
deriving DecidableEq, Inhabited

/-- Result of a whole `process_tifs` run: the final loop state plus whether
the `input_files.txt` manifest was written (line 160) and the list of
external commands issued via `subprocess.run` (lines 164-211). -/
structure RunResult extends RunState where
  manifestWritten : Bool
  commands : List (List String)
deriving DecidableEq, Inhabited

/-- Treatment of a finished `download_tif` call by `process_tifs`
(lines 152-154): when the returned value is truthy, append the local path to
`input_files` and mark the URL completed (which persists the updated set);
otherwise leave everything but the attempt log unchanged. -/
def handleDownload (st : RunState) (dir : String) (i : Nat) (url : String)
    (d : DownloadOutcome) : RunState :=
  if pyTruthy d.result then
    { tracker := (mark_completed st.tracker url).1
      input_files := st.input_files ++ [dir ++ "/input_" ++ toString i ++ ".tif"]
      attempted := st.attempted ++ [url]
      persisted := (mark_completed st.tracker url).2 }
  else
    { st with attempted := st.attempted ++ [url] }

/-- One iteration of the loop (lines 145-154): skip the URL if the tracker
already reports it completed (line 146), otherwise download it with the
default three attempts and handle the result. -/
def process_step (env : String → Nat → AttemptOutcome) (dir : String) (i : Nat)
    (url : String) (st : RunState) : RunState :=
  if is_completed st.tracker url then st
  else handleDownload st dir i url (download_tif (env url) 3)

/-- The whole loop (lines 145-154), with `i` counting from 1 as in
`enumerate(tif_urls, 1)`. The oracle `env url i` gives the outcome of the
`i`-th attempt of downloading `url`. -/
def process_loop (env : String → Nat → AttemptOutcome) (dir : String) :
    Nat → List String → RunState → RunState
  | _, [], st => st
  | i, url :: rest, st => process_loop env dir (i + 1) rest (process_step env dir i url st)

/-- Argument vectors of the four `subprocess.run` invocations
(lines 164-211), in order: gdalwarp merge+reproject, gdaladdo overviews,
gdal_translate tiling, gdaladdo tiled overviews. -/
def pipelineCommands (dir : String) : List (List String) :=
  [["gdalwarp", "-overwrite", "-r", "lanczos",
    "-co", "COMPRESS=LZW", "-co", "TILED=YES", "-co", "BLOCKXSIZE=256",
    "-co", "BLOCKYSIZE=256", "-co", "PREDICTOR=2", "-co", "BIGTIFF=YES",
    "-t_srs", "EPSG:3857", "-tr", "0.3", "0.3", "-tap", "-multi",
    "-wo", "NUM_THREADS=ALL_CPUS", "-of", "GTiff", "-dstnodata", "0",
    "-srcnodata", "0", "-input_file_list", "input_files.txt",
    dir ++ "/final_merge.tif"],
   ["gdaladdo", "-r", "average", "-ro", "--config", "COMPRESS_OVERVIEW", "LZW",
    "--config", "PREDICTOR_OVERVIEW", "2", dir ++ "/final_merge.tif",
    "2", "4", "8", "16", "32", "64", "128"],
   ["gdal_translate", "-of", "MBTILES", "-co", "TILE_FORMAT=JPG",
    "-co", "QUALITY=95", "-co", "ZOOM_LEVEL_STRATEGY=LOWER",
    "-co", "RESAMPLING=CUBIC", "-co", "COMPRESS=LZW", "-co", "MINZOOM=1",
    "-co", "MAXZOOM=16", dir ++ "/final_merge.tif",
    dir ++ "/final_merge_raster.mbtiles"],
   ["gdaladdo", "-r", "cubic", "--config", "COMPRESS_OVERVIEW", "JPEG",
    "--config", "JPEG_QUALITY_OVERVIEW", "95",
    dir ++ "/final_merge_raster.mbtiles",
    "2", "4", "8", "16", "32", "64", "128", "256", "512", "1024", "2048",
    "4096", "8192", "16384", "32768"]]

/-- Embedding of `process_tifs` (lines 140-213). Creating the
`ProcessTracker` loads the progress file (line 142); a corrupt file raises
there and aborts the run (`.error`). Otherwise the loop runs over all URLs,
and if no new input files were produced the function returns early
(lines 156-158) without writing the manifest or invoking any external
command. -/
def process_tifs (env : String → Nat → AttemptOutcome) (dir : String)
    (urls : List String) (file : FileState) : Except TrackerError RunResult :=
  (load_progress file).map (fun t0 =>
    let st := process_loop env dir 1 urls
      { tracker := t0, input_files := [], attempted := [], persisted := file }
    if st.input_files.isEmpty then
      { toRunState := st, manifestWritten := false, commands := [] }
    else
      { toRunState := st, manifestWritten := true, commands := pipelineCommands dir })

/-- Convenience projection out of `Except` for stating concrete-run facts. -/
def runOf (e : Except TrackerError RunResult) : RunResult :=
  e.toOption.getD default

/-! ## Concrete scenario inputs used by witnesses and counterexamples -/

/-- Attempt oracle: every attempt succeeds. -/
def envSuccess : String → Nat → AttemptOutcome := fun _ _ => .success

/-- Attempt oracle: every attempt fails before the output file is opened. -/
def envFail : String → Nat → AttemptOutcome := fun _ _ => .failBeforeOpen

/-- Attempt script: attempts 0 and 1 raise a transport error before the file
is opened, attempt 2 succeeds. -/
def twoFailsThenSuccess : Nat → AttemptOutcome :=
  fun n => if n < 2 then .failBeforeOpen else .success

/-- Attempt script: every attempt dies while streaming, leaving a partially
written file. -/
def allFailDuringStream : Nat → AttemptOutcome := fun _ => .failDuringStream

/-- The three features of the worked example in the spec: datetimes 2023-06-01,
2023-07-01, 2022-05-01 with asset URLs A, B, A. -/
def exampleFeatures : List Feature :=
  [Feature.wf "2023-06-01T00:00:00Z" "A",
   Feature.wf "2023-07-01T00:00:00Z" "B",
   Feature.wf "2022-05-01T00:00:00Z" "A"]

/-! ## Order lemmas for the sort relation -/

theorem lexLe_total : ∀ as bs : List Char, lexLe as bs = true ∨ lexLe bs as = true := by
  intro as
  induction as with
  | nil => intro bs; left; rfl
  | cons a as ih =>
    intro bs
    cases bs with
    | nil => right; rfl
    | cons b bs =>
      by_cases h1 : a.toNat < b.toNat
      · left; simp [lexLe, h1]
      · by_cases h2 : b.toNat < a.toNat
        · right; simp [lexLe, h1, h2]
        · rcases ih bs with h | h
          · left; simp [lexLe, h1, h2, h]
          · right; simp [lexLe, h1, h2, h]

theorem lexLe_trans : ∀ as bs cs : List Char,
    lexLe as bs = true → lexLe bs cs = true → lexLe as cs = true := by
  intro as
  induction as with
  | nil => intro bs cs _ _; rfl
  | cons a as ih =>
    intro bs cs hab hbc
    cases bs with
    | nil => simp [lexLe] at hab
    | cons b bs =>
      cases cs with
      | nil => simp [lexLe] at hbc
      | cons c cs =>
        simp only [lexLe] at hab hbc ⊢
        by_cases hab1 : a.toNat < b.toNat
        · by_cases hbc1 : b.toNat < c.toNat
          · simp [show a.toNat < c.toNat from Nat.lt_trans hab1 hbc1]
          · by_cases hbc2 : c.toNat < b.toNat
            · simp [hbc1, hbc2] at hbc
            · have hcb : b.toNat = c.toNat :=
                Nat.le_antisymm (Nat.le_of_not_lt hbc2) (Nat.le_of_not_lt hbc1)
              simp [show a.toNat < c.toNat from hcb ▸ hab1]
        · by_cases hab2 : b.toNat < a.toNat
          · simp [hab1, hab2] at hab
          · have hba : a.toNat = b.toNat :=
              Nat.le_antisymm (Nat.le_of_not_lt hab2) (Nat.le_of_not_lt hab1)
            simp only [hab1, hab2, if_neg, if_false] at hab
            by_cases hbc1 : b.toNat < c.toNat
            · simp [hba ▸ hbc1]
            · by_cases hbc2 : c.toNat < b.toNat
              · simp [hbc1, hbc2] at hbc
              · simp only [hbc1, hbc2, if_neg, if_false] at hbc
                have h3 : ¬ a.toNat < c.toNat := by omega
                have h4 : ¬ c.toNat < a.toNat := by omega
                simp [h3, h4, ih bs cs hab hbc]

instance : IsTotal Feature featureLe := ⟨fun a b => by
  simp only [featureLe, strLe]
  exact lexLe_total b.datetimeOf.toList a.datetimeOf.toList⟩

instance : IsTrans Feature featureLe := ⟨fun a b c hab hbc => by
  simp only [featureLe, strLe] at hab hbc ⊢
  exact lexLe_trans _ _ _ hbc hab⟩

/-! ## Deduplication and set-insert lemmas -/

theorem mem_dedupGo {α : Type} [DecidableEq α] :
    ∀ (xs acc : List α) (a : α), a ∈ dedupGo acc xs ↔ a ∈ acc ∨ a ∈ xs := by
  intro xs
  induction xs with
  | nil => intro acc a; simp [dedupGo]
  | cons x xs ih =>
    intro acc a
    by_cases hx : x ∈ acc
    · rw [dedupGo, if_pos hx, ih]
      constructor
      · rintro (h | h)
        · exact Or.inl h
        · exact Or.inr (List.mem_cons_of_mem _ h)
      · rintro (h | h)
        · exact Or.inl h
        · rcases List.mem_cons.mp h with rfl | h
          · exact Or.inl hx
          · exact Or.inr h
    · rw [dedupGo, if_neg hx, ih]
      simp only [List.mem_append, List.mem_singleton, List.mem_cons]
      tauto

theorem nodup_dedupGo {α : Type} [DecidableEq α] :
    ∀ (xs acc : List α), acc.Nodup → (dedupGo acc xs).Nodup := by
  intro xs
  induction xs with
  | nil => intro acc h; exact h
  | cons x xs ih =>
    intro acc h
    by_cases hx : x ∈ acc
    · rw [dedupGo, if_pos hx]; exact ih acc h
    · rw [dedupGo, if_neg hx]
      refine ih (acc ++ [x]) ?_
      rw [List.nodup_append]
      exact ⟨h, List.nodup_singleton x, by simpa using hx⟩

theorem mem_dedupFirstSeen {α : Type} [DecidableEq α] (l : List α) (a : α) :
    a ∈ dedupFirstSeen l ↔ a ∈ l := by
  rw [dedupFirstSeen, mem_dedupGo]
  simp

theorem nodup_dedupFirstSeen {α : Type} [DecidableEq α] (l : List α) :
    (dedupFirstSeen l).Nodup :=
  nodup_dedupGo l [] List.nodup_nil

theorem dedupGo_of_nodup {α : Type} [DecidableEq α] :
    ∀ (xs acc : List α), (acc ++ xs).Nodup → dedupGo acc xs = acc ++ xs := by
  intro xs
  induction xs with
  | nil => intro acc _; simp [dedupGo]
  | cons x xs ih =>
    intro acc h
    have hx : x ∉ acc := by
      intro hmem
      rcases List.nodup_append.mp h with ⟨_, _, hdisj⟩
      exact hdisj hmem (List.mem_cons_self x xs)
    rw [dedupGo, if_neg hx, ih (acc ++ [x]) (by simpa using h)]
    simp

theorem dedupFirstSeen_of_nodup {α : Type} [DecidableEq α] (l : List α)
    (h : l.Nodup) : dedupFirstSeen l = l := by
  rw [dedupFirstSeen, dedupGo_of_nodup l [] (by simpa using h)]
  simp

theorem mem_pySetInsert (s : List String) (u a : String) :
    a ∈ pySetInsert s u ↔ a ∈ s ∨ a = u := by
  rw [pySetInsert]
  by_cases hu : u ∈ s
  · rw [if_pos hu]
    constructor
    · exact Or.inl
    · rintro (h | rfl)
      · exact h
      · exact hu
  · rw [if_neg hu]
    simp

theorem nodup_pySetInsert (s : List String) (u : String) (h : s.Nodup) :
    (pySetInsert s u).Nodup := by
  rw [pySetInsert]
  by_cases hu : u ∈ s
  · rw [if_pos hu]; exact h
  · rw [if_neg hu]
    rw [List.nodup_append]
    exact ⟨h, List.nodup_singleton u, by simpa using hu⟩

theorem load_nodup (file : FileState) (s : List String)
    (h : load_progress file = .ok s) : s.Nodup := by
  cases file with
  | absent =>
    have : s = [] := by simpa [load_progress] using h.symm
    simp [this]
  | corrupt => simp [load_progress] at h
  | valid entries =>
    have : s = dedupFirstSeen entries := by
      simpa [load_progress] using h.symm
    rw [this]
    exact nodup_dedupFirstSeen entries

/-! ## Small facts about truthiness and bounded quantifiers -/

theorem pyTruthy_iff (x : Option Bool) : pyTruthy x = true ↔ x = some true := by
  cases x with
  | none => simp [pyTruthy]
  | some b => cases b <;> simp [pyTruthy]

theorem forall_lt_three (p : Nat → Prop) :
    (∀ j, j < 3 → p j) ↔ p 0 ∧ p 1 ∧ p 2 := by
  constructor
  · intro h
    exact ⟨h 0 (by omega), h 1 (by omega), h 2 (by omega)⟩
  · rintro ⟨h0, h1, h2⟩ j hj
    interval_cases j
    · exact h0
    · exact h1
    · exact h2

/-! ## Sortedness and most-recent-year lemmas for the catalog query -/

theorem lexLe_refl : ∀ as : List Char, lexLe as as = true := by
  intro as
  induction as with
  | nil => rfl
  | cons a as ih => simp [lexLe, ih]

theorem featureLe_refl (f : Feature) : featureLe f f := by
  simp only [featureLe, strLe]
  exact lexLe_refl _

theorem mem_sortedOf (features : List Feature) (f : Feature) :
    f ∈ sortedOf features ↔ f ∈ features :=
  (List.perm_insertionSort featureLe features).mem_iff

theorem sorted_sortedOf (features : List Feature) :
    List.Sorted featureLe (sortedOf features) :=
  List.sorted_insertionSort featureLe features

theorem sortedOf_ne_nil (features : List Feature) (hne : features ≠ []) :
    sortedOf features ≠ [] := by
  intro h
  have hp : (sortedOf features).Perm features := List.perm_insertionSort featureLe features
  rw [h] at hp
  exact hne hp.symm.eq_nil

theorem headD_sortedOf_mem (features : List Feature) (hne : features ≠ []) :
    (sortedOf features).headD default ∈ features := by
  rw [← mem_sortedOf]
  cases hs : sortedOf features with
  | nil => exact absurd hs (sortedOf_ne_nil features hne)
  | cons f fs => simp

theorem headD_sortedOf_ge (features : List Feature) (hne : features ≠ [])
    (g : Feature) (hg : g ∈ features) :
    featureLe ((sortedOf features).headD default) g := by
  have hs := sorted_sortedOf features
  have hgs : g ∈ sortedOf features := (mem_sortedOf features g).mpr hg
  cases he : sortedOf features with
  | nil => exact absurd he (sortedOf_ne_nil features hne)
  | cons f fs =>
    rw [he] at hs hgs
    rcases List.mem_cons.mp hgs with rfl | hmem
    · simpa using featureLe_refl g
    · simpa using (List.sorted_cons.mp hs).1 g hmem

theorem foldr_max_le (l : List Nat) (y : Nat) (h : ∀ x ∈ l, x ≤ y) :
    l.foldr max 0 ≤ y := by
  induction l with
  | nil => exact Nat.zero_le y
  | cons x xs ih =>
    simp only [List.foldr_cons]
    exact max_le (h x (List.mem_cons_self x xs))
      (ih fun z hz => h z (List.mem_cons_of_mem x hz))

theorem le_foldr_max (l : List Nat) (x : Nat) (h : x ∈ l) :
    x ≤ l.foldr max 0 := by
  induction l with
  | nil => simp at h
  | cons z zs ih =>
    simp only [List.foldr_cons]
    rcases List.mem_cons.mp h with rfl | hz
    · exact le_max_left _ _
    · exact le_trans (ih hz) (le_max_right _ _)

theorem le_maxYearOf (features : List Feature) (f : Feature) (hf : f ∈ features) :
    yearOf f.datetimeOf ≤ maxYearOf features :=
  le_foldr_max _ _ (List.mem_map_of_mem _ hf)

theorem foldr_max_mem : ∀ l : List Nat, l ≠ [] → l.foldr max 0 ∈ l := by
  intro l
  induction l with
  | nil => intro h; exact absurd rfl h
  | cons x xs ih =>
    intro _
    simp only [List.foldr_cons]
    cases xs with
    | nil => simp
    | cons z zs =>
      rcases le_total ((z :: zs).foldr max 0) x with h | h
      · rw [max_eq_left h]
        exact List.mem_cons_self _ _
      · rw [max_eq_right h]
        exact List.mem_cons_of_mem _ (ih (by simp))

theorem maxYearOf_attained (features : List Feature) (hne : features ≠ []) :
    ∃ f ∈ features, maxYearOf features = yearOf f.datetimeOf := by
  have hmem : maxYearOf features ∈ features.map (fun f => yearOf f.datetimeOf) :=
    foldr_max_mem _ (by simpa using hne)
  rcases List.mem_map.mp hmem with ⟨f, hf, hval⟩
  exact ⟨f, hf, hval.symm⟩

theorem latestYearOf_eq_max (features : List Feature) (hne : features ≠ [])
    (hmono : ∀ f ∈ features, ∀ g ∈ features,
      strLe f.datetimeOf g.datetimeOf = true →
        yearOf f.datetimeOf ≤ yearOf g.datetimeOf) :
    latestYearOf features = maxYearOf features := by
  set h0 := (sortedOf features).headD default with hh0
  have hmem : h0 ∈ features := headD_sortedOf_mem features hne
  have hub : ∀ g ∈ features, yearOf g.datetimeOf ≤ yearOf h0.datetimeOf := by
    intro g hg
    exact hmono g hg h0 hmem (headD_sortedOf_ge features hne g hg)
  refine le_antisymm ?_ ?_
  · exact le_maxYearOf features h0 hmem
  · rcases maxYearOf_attained features hne with ⟨f, hf, hval⟩
    rw [hval]
    exact hub f hf

theorem mem_regionOf (features : List Feature) (hne : features ≠ [])
    (hmono : ∀ f ∈ features, ∀ g ∈ features,
      strLe f.datetimeOf g.datetimeOf = true →
        yearOf f.datetimeOf ≤ yearOf g.datetimeOf)
    (f : Feature) :
    f ∈ regionOf features ↔
      f ∈ features ∧ yearOf f.datetimeOf = maxYearOf features := by
  rw [regionOf, List.mem_filter, mem_sortedOf, beq_iff_eq,
    latestYearOf_eq_max features hne hmono]

theorem sorted_regionOf (features : List Feature) :
    List.Sorted featureLe (regionOf features) :=
  (sorted_sortedOf features).filter _

theorem get_tif_urls_parsed (features : List Feature) (hne : features ≠ [])
    (hwf : ∀ f ∈ features, f.isMalformed = false)
    (hfmt : ∀ f ∈ features, validDatetime f.datetimeOf = true) :
    get_tif_urls (.jsonDict (some features)) = .ok (extractUrls features) := by
  rcases features with _ | ⟨f, fs⟩
  · exact absurd rfl hne
  · have hany : (f :: fs).any Feature.isMalformed = false := by
      rw [List.any_eq_false]
      intro x hx
      rw [hwf x hx]
      exact Bool.false_ne_true
    have hall : (sortedOf (f :: fs)).all (fun g => validDatetime g.datetimeOf) = true := by
      rw [List.all_eq_true]
      intro x hx
      exact hfmt x ((mem_sortedOf (f :: fs) x).mp hx)
    simp [get_tif_urls, hany, hall]

/-! ## Processing-loop invariants -/

theorem is_completed_iff (s : List String) (u : String) :
    is_completed s u = true ↔ u ∈ s := by
  simp [is_completed]

theorem tracker_step_mono (env : String → Nat → AttemptOutcome) (dir : String)
    (i : Nat) (url : String) (st : RunState) (u : String) (hu : u ∈ st.tracker) :
    u ∈ (process_step env dir i url st).tracker := by
  rw [process_step]
  by_cases hc : is_completed st.tracker url = true
  · rw [if_pos hc]; exact hu
  · rw [if_neg hc, handleDownload]
    by_cases ht : pyTruthy (download_tif (env url) 3).result = true
    · rw [if_pos ht]
      exact (mem_pySetInsert st.tracker url u).mpr (Or.inl hu)
    · rw [if_neg ht]; exact hu

theorem attempted_step (env : String → Nat → AttemptOutcome) (dir : String)
    (i : Nat) (url : String) (st : RunState) (u : String)
    (hu : u ∈ st.tracker) (hna : u ∉ st.attempted) :
    u ∉ (process_step env dir i url st).attempted := by
  rw [process_step]
  by_cases hc : is_completed st.tracker url = true
  · rw [if_pos hc]; exact hna
  · rw [if_neg hc]
    have hurl : url ∉ st.tracker := fun hmem => hc ((is_completed_iff _ _).mpr hmem)
    have hne : u ≠ url := fun h => hurl (h ▸ hu)
    rw [handleDownload]
    by_cases ht : pyTruthy (download_tif (env url) 3).result = true
    · rw [if_pos ht]
      intro hmem
      rcases List.mem_append.mp hmem with h | h
      · exact hna h
      · exact hne (List.mem_singleton.mp h)
    · rw [if_neg ht]
      intro hmem
      rcases List.mem_append.mp hmem with h | h
      · exact hna h
      · exact hne (List.mem_singleton.mp h)

theorem sync_step (env : String → Nat → AttemptOutcome) (dir : String)
    (i : Nat) (url : String) (st : RunState) (hnd : st.tracker.Nodup)
    (hsync : load_progress st.persisted = .ok st.tracker) :
    (process_step env dir i url st).tracker.Nodup
    ∧ load_progress (process_step env dir i url st).persisted
        = .ok (process_step env dir i url st).tracker := by
  rw [process_step]
  by_cases hc : is_completed st.tracker url = true
  · rw [if_pos hc]; exact ⟨hnd, hsync⟩
  · rw [if_neg hc, handleDownload]
    by_cases ht : pyTruthy (download_tif (env url) 3).result = true
    · rw [if_pos ht]
      have hnd' : (pySetInsert st.tracker url).Nodup := nodup_pySetInsert st.tracker url hnd
      constructor
      · simpa [mark_completed] using hnd'
      · show load_progress (mark_completed st.tracker url).2 = .ok (mark_completed st.tracker url).1
        rw [mark_completed, save_progress]
        show load_progress (.valid (pySetInsert st.tracker url)) = _
        rw [load_progress, dedupFirstSeen_of_nodup _ hnd']
    · rw [if_neg ht]; exact ⟨hnd, hsync⟩

theorem sync_loop (env : String → Nat → AttemptOutcome) (dir : String) :
    ∀ (urls : List String) (i : Nat) (st : RunState), st.tracker.Nodup →
    load_progress st.persisted = .ok st.tracker →
    (process_loop env dir i urls st).tracker.Nodup
    ∧ load_progress (process_loop env dir i urls st).persisted
        = .ok (process_loop env dir i urls st).tracker := by
  intro urls
  induction urls with
  | nil => intro i st hnd hsync; exact ⟨hnd, hsync⟩
  | cons url rest ih =>
    intro i st hnd hsync
    rw [process_loop]
    rcases sync_step env dir i url st hnd hsync with ⟨h1, h2⟩
    exact ih (i + 1) _ h1 h2

theorem attempted_loop (env : String → Nat → AttemptOutcome) (dir : String) :
    ∀ (urls : List String) (i : Nat) (st : RunState) (u : String),
    u ∈ st.tracker → u ∉ st.attempted →
    u ∉ (process_loop env dir i urls st).attempted := by
  intro urls
  induction urls with
  | nil => intro i st u _ hna; exact hna
  | cons url rest ih =>
    intro i st u hu hna
    rw [process_loop]
    exact ih (i + 1) _ u (tracker_step_mono env dir i url st u hu)
      (attempted_step env dir i url st u hu hna)

theorem loop_no_new_inputs (env : String → Nat → AttemptOutcome) (dir : String)
    (t0 : List String) :
    ∀ (urls : List String) (i : Nat) (st : RunState),
    (∀ u ∈ urls, u ∈ t0 ∨ (download_tif (env u) 3).result ≠ some true) →
    (∀ u, u ∈ t0 → u ∈ st.tracker) →
    (process_loop env dir i urls st).input_files = st.input_files := by
  intro urls
  induction urls with
  | nil => intro i st _ _; rfl
  | cons url rest ih =>
    intro i st hurls hsub
    rw [process_loop]
    have hd := hurls url (List.mem_cons_self url rest)
    by_cases hc : is_completed st.tracker url = true
    · rw [process_step, if_pos hc]
      exact ih (i + 1) st (fun u hu => hurls u (List.mem_cons_of_mem _ hu)) hsub
    · have hurlmem : url ∉ st.tracker := fun hmem => hc ((is_completed_iff _ _).mpr hmem)
      have hres : (download_tif (env url) 3).result ≠ some true := by
        rcases hd with h | h
        · exact absurd (hsub url h) hurlmem
        · exact h
      have ht : ¬ pyTruthy (download_tif (env url) 3).result = true :=
        fun h => hres ((pyTruthy_iff _).mp h)
      rw [process_step, if_neg hc, handleDownload, if_neg ht]
      exact ih (i + 1) _ (fun u hu => hurls u (List.mem_cons_of_mem _ hu)) hsub

theorem process_tifs_spec (env : String → Nat → AttemptOutcome) (dir : String)
    (urls : List String) (file : FileState) (t0 : List String)
    (hload : load_progress file = .ok t0) :
    process_tifs env dir urls file =
      .ok (let st := process_loop env dir 1 urls
             { tracker := t0, input_files := [], attempted := [], persisted := file }
           if st.input_files.isEmpty then
             { toRunState := st, manifestWritten := false, commands := [] }
           else
             { toRunState := st, manifestWritten := true, commands := pipelineCommands dir }) := by
  rw [process_tifs, hload]
  rfl

/-! ## Claim theorems -/

/-- C1: for every tracker state and identifier, after a successful
`mark_completed(id)` the persisted progress file, when reloaded via
`load_progress`, contains exactly the union of the previously persisted
identifiers and `id`: nothing is lost, nothing is duplicated. -/
theorem spec_C1_mark_completed_union (file : FileState) (s : List String) (u : String)
    (h : load_progress file = .ok s) :
    load_progress (mark_completed s u).2 = .ok (pySetInsert s u)
    ∧ (pySetInsert s u).Nodup
    ∧ ∀ x, x ∈ pySetInsert s u ↔ x ∈ s ∨ x = u := by
  have hnd : s.Nodup := load_nodup file s h
  have hnd2 : (pySetInsert s u).Nodup := nodup_pySetInsert s u hnd
  refine ⟨?_, hnd2, fun x => mem_pySetInsert s u x⟩
  show load_progress (save_progress (pySetInsert s u)) = _
  rw [save_progress, load_progress, dedupFirstSeen_of_nodup _ hnd2]

/-- C1 witness: the theorem applied to a concrete previously-persisted file
`["a"]` and new identifier `"b"`. -/
theorem spec_C1_mark_completed_union_witness :
    load_progress (.valid ["a"]) = .ok ["a"]
    ∧ (load_progress (mark_completed ["a"] "b").2 = .ok (pySetInsert ["a"] "b")
       ∧ (pySetInsert ["a"] "b").Nodup
       ∧ ∀ x, x ∈ pySetInsert ["a"] "b" ↔ x ∈ ["a"] ∨ x = "b") :=
  ⟨rfl, spec_C1_mark_completed_union (.valid ["a"]) ["a"] "b" rfl⟩

/-- C2: `load_progress` returns the empty set when the progress file does
not exist, and fails with the JSON-decode error (rather than returning any
set at all) when the file exists but is not valid JSON. -/
theorem spec_C2_load_behavior :
    load_progress .absent = .ok []
    ∧ load_progress .corrupt = .error .jsonDecodeError
    ∧ ∀ s, load_progress .corrupt ≠ .ok s :=
  ⟨rfl, rfl, fun s h => Except.noConfusion h⟩

/-- C4 counterexample: a response that is valid JSON but whose top level is
not an object makes `get_tif_urls` raise an uncaught `AttributeError`
(`.get` on a non-dict, line 112) instead of returning the empty list the
claim promises. -/
theorem spec_C4_counterexample :
    get_tif_urls .jsonNonDict ≠ .ok [] ∧ get_tif_urls .jsonNonDict = .error .attributeError :=
  ⟨fun h => Except.noConfusion h, rfl⟩

/-- C4 (amended): transport-level errors and a non-JSON response body (whose
`JSONDecodeError` is a `RequestException` and is caught) make `get_tif_urls`
return `[]`, as do a missing or empty `features` array; but a syntactically
valid JSON response of the wrong shape — a non-object top level, a feature
missing the `properties`/`datetime`/`assets` keys, or an unparseable
datetime — raises an uncaught exception instead of returning `[]`. -/
theorem spec_C4_error_paths :
    get_tif_urls .transportError = .ok []
    ∧ get_tif_urls .notJson = .ok []
    ∧ get_tif_urls (.jsonDict none) = .ok []
    ∧ get_tif_urls (.jsonDict (some [])) = .ok []
    ∧ get_tif_urls .jsonNonDict = .error .attributeError
    ∧ get_tif_urls (.jsonDict (some [.malformed])) = .error .keyError
    ∧ get_tif_urls (.jsonDict (some [.wf "not-a-datetime" "https://x/a.tif"]))
        = .error .valueError :=
  ⟨rfl, rfl, rfl, rfl, rfl, rfl, rfl⟩

/-- C9: the retry session is configured with 3 total retries exactly on the
status list [500, 502, 503, 504] with backoff factor 0.3, and the session
object carries a `timeout` attribute of 300; but no timeout is actually
applied to either the catalog POST (line 106) or the download GET (line 46),
because neither call passes a `timeout` argument and the requests library
never consults the `session.timeout` attribute. This contradicts the claim
that the 300-unit timeout is applied to both requests. -/
theorem spec_C9_session_config_and_timeout :
    (create_retry_session 3 (3 / 10) 300).retry.total = 3
    ∧ (create_retry_session 3 (3 / 10) 300).retry.status_forcelist = [500, 502, 503, 504]
    ∧ (create_retry_session 3 (3 / 10) 300).retry.backoff_factor = 3 / 10
    ∧ (create_retry_session 3 (3 / 10) 300).timeoutAttr = some 300
    ∧ catalogPostAppliedTimeout = none
    ∧ downloadGetAppliedTimeout = none
    ∧ catalogPostAppliedTimeout ≠ some 300
    ∧ downloadGetAppliedTimeout ≠ some 300 :=
  ⟨rfl, rfl, rfl, rfl, rfl, rfl, fun h => Option.noConfusion h, fun h => Option.noConfusion h⟩

/-- C10: with `max_retries = 0` the retry loop of `download_tif` performs no
attempt and the function returns Python `None` (modelled `none`), a value
distinct from both `True` and `False`; the truthiness test in the caller treats
it as failure, so the URL is neither marked completed nor appended to the
input-file list. The result does not depend on the attempt oracle at all,
witnessing that no attempt is consulted. -/
theorem spec_C10_zero_retries (o oAlt : Nat → AttemptOutcome) (st : RunState)
    (dir url : String) (i : Nat) :
    download_tif o 0 = { result := none, waited := 0, disk := none }
    ∧ download_tif oAlt 0 = download_tif o 0
    ∧ (download_tif o 0).result ≠ some true
    ∧ (download_tif o 0).result ≠ some false
    ∧ pyTruthy (download_tif o 0).result = false
    ∧ (handleDownload st dir i url (download_tif o 0)).tracker = st.tracker
    ∧ (handleDownload st dir i url (download_tif o 0)).input_files = st.input_files
    ∧ (handleDownload st dir i url (download_tif o 0)).persisted = st.persisted
    ∧ (handleDownload st dir i url (download_tif o 0)).attempted = st.attempted ++ [url] :=
  ⟨rfl, rfl, fun h => Option.noConfusion h, fun h => Option.noConfusion h, rfl, rfl, rfl, rfl, rfl⟩

/-- C3 counterexample: on features dated 2023-06-01, 2023-07-01, 2022-05-01
with URLs A, B, A, the code sorts by descending timestamp before extracting
URLs, so the result is `["B", "A"]`, not the `["A", "B"]` the claim states. -/
theorem spec_C3_counterexample :
    get_tif_urls (.jsonDict (some exampleFeatures)) = .ok ["B", "A"]
    ∧ get_tif_urls (.jsonDict (some exampleFeatures)) ≠ .ok ["A", "B"] := by
  refine ⟨rfl, fun h => ?_⟩
  have h2 : (["B", "A"] : List String) = ["A", "B"] := Except.ok.inj h
  exact absurd h2 (by decide)

/-- C3 (amended): for a parsed catalog response whose well-formed features
span two or more distinct years (with fixed-width datetimes, year extraction
being monotone along the code-point string order as it is for this format),
`get_tif_urls` retains exactly the features of the strictly most recent year
present, ordered by descending timestamp, and returns their asset URLs
deduplicated keeping the first occurrence in that sorted order — not in the
original response order; the worked example therefore yields `["B", "A"]`. -/
theorem spec_C3_latest_year_dedup (features : List Feature)
    (hne : features ≠ [])
    (hwf : ∀ f ∈ features, f.isMalformed = false)
    (hfmt : ∀ f ∈ features, validDatetime f.datetimeOf = true)
    (hmono : ∀ f ∈ features, ∀ g ∈ features,
      strLe f.datetimeOf g.datetimeOf = true →
        yearOf f.datetimeOf ≤ yearOf g.datetimeOf)
    (htwo : ∃ f ∈ features, ∃ g ∈ features,
      yearOf f.datetimeOf ≠ yearOf g.datetimeOf) :
    get_tif_urls (.jsonDict (some features)) = .ok (extractUrls features)
    ∧ (∀ f, f ∈ regionOf features ↔
        f ∈ features ∧ yearOf f.datetimeOf = maxYearOf features)
    ∧ List.Sorted featureLe (regionOf features)
    ∧ extractUrls features = dedupFirstSeen ((regionOf features).map Feature.hrefOf)
    ∧ (extractUrls features).Nodup
    ∧ (∀ u, u ∈ extractUrls features ↔ u ∈ (regionOf features).map Feature.hrefOf) :=
  ⟨get_tif_urls_parsed features hne hwf hfmt,
   fun f => mem_regionOf features hne hmono f,
   sorted_regionOf features, rfl,
   nodup_dedupFirstSeen _,
   fun u => mem_dedupFirstSeen _ u⟩

/-- C3 witness: the amended theorem applied to the worked example, whose
hypotheses (well-formedness, format validity, monotone year extraction, two
distinct years) all hold by computation, together with the concrete value of
the result. -/
theorem spec_C3_latest_year_dedup_witness :
    (exampleFeatures ≠ []
     ∧ (∀ f ∈ exampleFeatures, f.isMalformed = false)
     ∧ (∀ f ∈ exampleFeatures, validDatetime f.datetimeOf = true)
     ∧ (∀ f ∈ exampleFeatures, ∀ g ∈ exampleFeatures,
         strLe f.datetimeOf g.datetimeOf = true →
           yearOf f.datetimeOf ≤ yearOf g.datetimeOf)
     ∧ (∃ f ∈ exampleFeatures, ∃ g ∈ exampleFeatures,
         yearOf f.datetimeOf ≠ yearOf g.datetimeOf))
    ∧ (get_tif_urls (.jsonDict (some exampleFeatures)) = .ok (extractUrls exampleFeatures)
       ∧ (∀ f, f ∈ regionOf exampleFeatures ↔
           f ∈ exampleFeatures ∧ yearOf f.datetimeOf = maxYearOf exampleFeatures)
       ∧ List.Sorted featureLe (regionOf exampleFeatures)
       ∧ extractUrls exampleFeatures
           = dedupFirstSeen ((regionOf exampleFeatures).map Feature.hrefOf)
       ∧ (extractUrls exampleFeatures).Nodup
       ∧ (∀ u, u ∈ extractUrls exampleFeatures ↔
           u ∈ (regionOf exampleFeatures).map Feature.hrefOf))
    ∧ extractUrls exampleFeatures = ["B", "A"] :=
  ⟨⟨by decide, by decide, by decide, by decide, by decide⟩,
   spec_C3_latest_year_dedup exampleFeatures (by decide) (by decide) (by decide)
     (by decide) (by decide),
   rfl⟩

/-- C5: a download whose attempts 1 and 2 raise transport errors and whose
attempt 3 succeeds (with the default maximum of three attempts) returns
`True` with the file fully written, sleeps exactly 5 + 10 = 15 seconds of
backoff (the attempt-indexed waits being `(attempt_index + 1) * 5`), and the
caller then marks the URL completed — updating both the in-memory set and
the persisted file — and appends the local path to the input-file list. -/
theorem spec_C5_retry_success (o : Nat → AttemptOutcome) (st : RunState)
    (dir url : String) (i : Nat)
    (h0 : o 0 ≠ .success) (h1 : o 1 ≠ .success) (h2 : o 2 = .success) :
    download_tif o 3 = { result := some true, waited := 15, disk := some .full }
    ∧ (handleDownload st dir i url (download_tif o 3)).tracker
        = pySetInsert st.tracker url
    ∧ url ∈ (handleDownload st dir i url (download_tif o 3)).tracker
    ∧ (handleDownload st dir i url (download_tif o 3)).input_files
        = st.input_files ++ [dir ++ "/input_" ++ toString i ++ ".tif"]
    ∧ (handleDownload st dir i url (download_tif o 3)).persisted
        = .valid (pySetInsert st.tracker url) := by
  have hd : download_tif o 3 = { result := some true, waited := 15, disk := some .full } := by
    cases ho0 : o 0 with
    | success => exact absurd ho0 h0
    | failBeforeOpen =>
      cases ho1 : o 1 with
      | success => exact absurd ho1 h1
      | failBeforeOpen => simp [download_tif, download_go, ho0, ho1, h2]
      | failDuringStream => simp [download_tif, download_go, ho0, ho1, h2]
    | failDuringStream =>
      cases ho1 : o 1 with
      | success => exact absurd ho1 h1
      | failBeforeOpen => simp [download_tif, download_go, ho0, ho1, h2]
      | failDuringStream => simp [download_tif, download_go, ho0, ho1, h2]
  refine ⟨hd, ?_⟩
  rw [hd, handleDownload]
  simp [pyTruthy, mark_completed, save_progress, mem_pySetInsert]

/-- C5 witness: the theorem applied to the concrete attempt script that
fails before opening the file on attempts 1 and 2 and succeeds on
attempt 3, from an empty tracker state. -/
theorem spec_C5_retry_success_witness :
    (twoFailsThenSuccess 0 ≠ .success ∧ twoFailsThenSuccess 1 ≠ .success
      ∧ twoFailsThenSuccess 2 = .success)
    ∧ (download_tif twoFailsThenSuccess 3
         = { result := some true, waited := 15, disk := some .full }
       ∧ (handleDownload ⟨[], [], [], .absent⟩ "out" 1 "u"
           (download_tif twoFailsThenSuccess 3)).tracker = pySetInsert [] "u"
       ∧ "u" ∈ (handleDownload ⟨[], [], [], .absent⟩ "out" 1 "u"
           (download_tif twoFailsThenSuccess 3)).tracker
       ∧ (handleDownload ⟨[], [], [], .absent⟩ "out" 1 "u"
           (download_tif twoFailsThenSuccess 3)).input_files
           = [] ++ ["out" ++ "/input_" ++ toString 1 ++ ".tif"]
       ∧ (handleDownload ⟨[], [], [], .absent⟩ "out" 1 "u"
           (download_tif twoFailsThenSuccess 3)).persisted
           = .valid (pySetInsert [] "u")) :=
  ⟨⟨by decide, by decide, by decide⟩,
   spec_C5_retry_success twoFailsThenSuccess ⟨[], [], [], .absent⟩ "out" "u" 1
     (by decide) (by decide) (by decide)⟩

/-- C6 counterexample: when every attempt dies mid-stream, after all three
attempts fail a partially written file remains on disk (the code never
deletes it), contradicting the claim that no file for the URL is retained. -/
theorem spec_C6_counterexample :
    (download_tif allFailDuringStream 3).result = some false
    ∧ (download_tif allFailDuringStream 3).disk = some .incomplete
    ∧ (download_tif allFailDuringStream 3).disk ≠ none :=
  ⟨rfl, rfl, fun h => Option.noConfusion h⟩

/-- C6 (amended): when all three attempts raise transport errors,
`download_tif` returns `False`, the URL is not marked completed (tracker and
persisted file unchanged), the local path is not appended to the input-file
list, and the loop continues with the next URL; no file is created only when
every attempt failed before opening the output file — if any attempt died
mid-stream, a partially written file is left on disk. -/
theorem spec_C6_all_fail (o : Nat → AttemptOutcome) (env : String → Nat → AttemptOutcome)
    (st : RunState) (dir url : String) (i : Nat) (rest : List String)
    (h : ∀ j, j < 3 → o j ≠ .success) :
    (download_tif o 3).result = some false
    ∧ ((download_tif o 3).disk = none ↔ ∀ j, j < 3 → o j = .failBeforeOpen)
    ∧ (handleDownload st dir i url (download_tif o 3)).tracker = st.tracker
    ∧ (handleDownload st dir i url (download_tif o 3)).input_files = st.input_files
    ∧ (handleDownload st dir i url (download_tif o 3)).persisted = st.persisted
    ∧ process_loop env dir i (url :: rest) st
        = process_loop env dir (i + 1) rest (process_step env dir i url st) := by
  obtain ⟨h0, h1, h2⟩ := (forall_lt_three fun j => o j ≠ .success).mp h
  rw [forall_lt_three fun j => o j = .failBeforeOpen]
  have hloop : process_loop env dir i (url :: rest) st
      = process_loop env dir (i + 1) rest (process_step env dir i url st) := by
    rw [process_loop]
  cases ho0 : o 0 <;> cases ho1 : o 1 <;> cases ho2 : o 2 <;>
    first
    | exact absurd ho0 h0
    | exact absurd ho1 h1
    | exact absurd ho2 h2
    | simp [download_tif, download_go, ho0, ho1, ho2, handleDownload, pyTruthy, hloop]

/-- C6 witness: the amended theorem applied to a concrete oracle that fails
before opening the file on every attempt, from a state whose tracker already
holds an unrelated URL. -/
theorem spec_C6_all_fail_witness :
    (∀ j, j < 3 → envFail "u" j ≠ .success)
    ∧ ((download_tif (envFail "u") 3).result = some false
       ∧ ((download_tif (envFail "u") 3).disk = none
           ↔ ∀ j, j < 3 → envFail "u" j = .failBeforeOpen)
       ∧ (handleDownload ⟨["v"], [], [], .valid ["v"]⟩ "out" 1 "u"
           (download_tif (envFail "u") 3)).tracker
           = (⟨["v"], [], [], .valid ["v"]⟩ : RunState).tracker
       ∧ (handleDownload ⟨["v"], [], [], .valid ["v"]⟩ "out" 1 "u"
           (download_tif (envFail "u") 3)).input_files
           = (⟨["v"], [], [], .valid ["v"]⟩ : RunState).input_files
       ∧ (handleDownload ⟨["v"], [], [], .valid ["v"]⟩ "out" 1 "u"
           (download_tif (envFail "u") 3)).persisted
           = (⟨["v"], [], [], .valid ["v"]⟩ : RunState).persisted
       ∧ process_loop envFail "out" 1 ("u" :: ["w"]) ⟨["v"], [], [], .valid ["v"]⟩
           = process_loop envFail "out" (1 + 1) ["w"]
               (process_step envFail "out" 1 "u" ⟨["v"], [], [], .valid ["v"]⟩)) :=
  ⟨fun j _ hc => AttemptOutcome.noConfusion hc,
   spec_C6_all_fail (envFail "u") envFail ⟨["v"], [], [], .valid ["v"]⟩ "out" "u" 1 ["w"]
     (fun j _ hc => AttemptOutcome.noConfusion hc)⟩

/-- C7: in a run in which every URL is either already tracked as completed
or fails its download, no new input files are produced, and then none of the
four external-tool invocations is issued and no manifest is written. -/
theorem spec_C7_no_pipeline (env : String → Nat → AttemptOutcome) (dir : String)
    (urls : List String) (file : FileState) (t0 : List String) (r : RunResult)
    (hload : load_progress file = .ok t0)
    (hurls : ∀ u ∈ urls, u ∈ t0 ∨ (download_tif (env u) 3).result ≠ some true)
    (hr : process_tifs env dir urls file = .ok r) :
    r.input_files = [] ∧ r.commands = [] ∧ r.manifestWritten = false := by
  rw [process_tifs_spec env dir urls file t0 hload] at hr
  have hin : (process_loop env dir 1 urls
      { tracker := t0, input_files := [], attempted := [], persisted := file }).input_files
      = [] :=
    loop_no_new_inputs env dir t0 urls 1 _ hurls (fun u hu => hu)
  have hr2 := (Except.ok.inj hr).symm
  rw [hr2]
  refine ⟨?_, ?_, ?_⟩ <;> simp [hin]

/-- C7 witness: the theorem applied to a single-URL run over an absent
progress file whose download fails every attempt. -/
theorem spec_C7_no_pipeline_witness :
    (∀ u ∈ ["u"], u ∈ ([] : List String)
      ∨ (download_tif (envFail u) 3).result ≠ some true)
    ∧ ((runOf (process_tifs envFail "out" ["u"] .absent)).input_files = []
       ∧ (runOf (process_tifs envFail "out" ["u"] .absent)).commands = []
       ∧ (runOf (process_tifs envFail "out" ["u"] .absent)).manifestWritten = false) :=
  ⟨fun u _ => Or.inr (fun hc => Bool.noConfusion (Option.some.inj hc)),
   spec_C7_no_pipeline envFail "out" ["u"] .absent []
     (runOf (process_tifs envFail "out" ["u"] .absent)) rfl
     (fun u _ => Or.inr (fun hc => Bool.noConfusion (Option.some.inj hc))) rfl⟩

/-- C8: a URL recorded in the progress file persisted by the first run (which
reloads to exactly the final tracker set of the first run) is never given to
`download_tif` by a second run over the same URL list and store: it is
skipped with no network I/O, whatever the download outcomes of either run. -/
theorem spec_C8_idempotent_skip (env1 env2 : String → Nat → AttemptOutcome)
    (dir : String) (urls : List String) (file : FileState)
    (r1 r2 : RunResult) (u : String)
    (h1 : process_tifs env1 dir urls file = .ok r1)
    (h2 : process_tifs env2 dir urls r1.persisted = .ok r2)
    (hu : u ∈ r1.tracker) :
    load_progress r1.persisted = .ok r1.tracker ∧ u ∉ r2.attempted := by
  cases hload : load_progress file with
  | error e =>
    rw [process_tifs, hload] at h1
    exact absurd h1 (by simp [Except.map])
  | ok t0 =>
    rw [process_tifs_spec env1 dir urls file t0 hload] at h1
    have hr1 := (Except.ok.inj h1).symm
    have hrs1 : r1.toRunState = process_loop env1 dir 1 urls
        { tracker := t0, input_files := [], attempted := [], persisted := file } := by
      rw [hr1]
      by_cases hemp : (process_loop env1 dir 1 urls
          { tracker := t0, input_files := [], attempted := [], persisted := file }).input_files.isEmpty
      · simp [hemp]
      · simp [hemp]
    have hnd0 : t0.Nodup := load_nodup file t0 hload
    have hsync := sync_loop env1 dir urls 1
      { tracker := t0, input_files := [], attempted := [], persisted := file } hnd0 hload
    have hsync1 : load_progress r1.persisted = .ok r1.tracker := by
      rw [show r1.persisted = _ from congrArg RunState.persisted hrs1,
          show r1.tracker = _ from congrArg RunState.tracker hrs1]
      exact hsync.2
    refine ⟨hsync1, ?_⟩
    rw [process_tifs_spec env2 dir urls r1.persisted r1.tracker hsync1] at h2
    have hr2 := (Except.ok.inj h2).symm
    have hrs2 : r2.toRunState = process_loop env2 dir 1 urls
        { tracker := r1.tracker, input_files := [], attempted := [], persisted := r1.persisted } := by
      rw [hr2]
      by_cases hemp : (process_loop env2 dir 1 urls
          { tracker := r1.tracker, input_files := [], attempted := [],
            persisted := r1.persisted }).input_files.isEmpty
      · simp [hemp]
      · simp [hemp]
    have hnot := attempted_loop env2 dir urls 1
      { tracker := r1.tracker, input_files := [], attempted := [], persisted := r1.persisted }
      u hu (List.not_mem_nil u)
    rw [show r2.attempted = _ from congrArg RunState.attempted hrs2]
    exact hnot

/-- C8 witness: two consecutive single-URL runs over the same store; the
first run downloads and records the URL, and the second run, started from
the file persisted by the first run, never attempts it. -/
theorem spec_C8_idempotent_skip_witness :
    load_progress (runOf (process_tifs envSuccess "out" ["u"] .absent)).persisted
      = .ok (runOf (process_tifs envSuccess "out" ["u"] .absent)).tracker
    ∧ "u" ∉ (runOf (process_tifs envSuccess "out" ["u"]
        (runOf (process_tifs envSuccess "out" ["u"] .absent)).persisted)).attempted :=
  spec_C8_idempotent_skip envSuccess envSuccess "out" ["u"] .absent
    (runOf (process_tifs envSuccess "out" ["u"] .absent))
    (runOf (process_tifs envSuccess "out" ["u"]
      (runOf (process_tifs envSuccess "out" ["u"] .absent)).persisted))
    "u" rfl rfl (by decide)
